import Mathlib

/-!
Shallow embedding of `spicat` (src/src/main.rs), a command-line tool that
performs full-duplex SPI transactions: it configures an spidev handle, reads
the whole transmit payload, builds a one- or two-segment transfer plan
(optionally with a pre-delay segment), runs the plan `repeat` times, and
formats each iteration's captured bytes to the output sink.

The embedding models the pure parts (plan construction, output formatting)
as Lean functions and the effectful `do_main` as a function of an
environment oracle (results of the fallible system calls) returning the
trace of observable events (configure calls, transfers, sink writes) plus
the final result.
-/

namespace Spicat

/-! ## Data model and operations (the embedding) -/

/-- A byte, as stored in the Rust `Vec<u8>` buffers. -/
abbrev Byte := Fin 256

/-- `enum OutputFormat` from main.rs (lines 37-47). -/
inductive OutputFormat where
  | Decimal
  | Hexadecimal
  | Raw
deriving DecidableEq

/-- `enum SpiMode` from main.rs (lines 49-61), `#[repr(u8)]` with values 0-3. -/
inductive SpiMode where
  | M0
  | M1
  | M2
  | M3
deriving DecidableEq

/-- The `as u8` cast of `SpiMode` (its `#[repr(u8)]` discriminants). -/
def SpiMode.toU8 : SpiMode → Nat
  | .M0 => 0
  | .M1 => 1
  | .M2 => 2
  | .M3 => 3

/-- `SpiMode::flags` (main.rs lines 63-72): the spidev crate's
`SPI_MODE_0/1/2/3` constants, whose numeric values are 0, 1, 2, 3
(`SPI_CPHA = 0x01`, `SPI_CPOL = 0x02`). -/
def SpiMode.flags : SpiMode → Nat
  | .M0 => 0
  | .M1 => 1
  | .M2 => 2
  | .M3 => 3

/-- `enum ChipSelect` from main.rs (lines 74-81). -/
inductive ChipSelect where
  | ActiveLow
  | ActiveHigh
  | Disabled
deriving DecidableEq

/-- `ChipSelect::flags` (main.rs lines 83-91): `empty() = 0`,
`SPI_CS_HIGH = 0x04`, `SPI_NO_CS = 0x40`. -/
def ChipSelect.flags : ChipSelect → Nat
  | .ActiveLow => 0
  | .ActiveHigh => 4
  | .Disabled => 64

/-- The `Display` impl for `ChipSelect` (main.rs lines 93-101). -/
def ChipSelect.display : ChipSelect → String
  | .ActiveLow => "active-low"
  | .ActiveHigh => "active-high"
  | .Disabled => "disabled"

/-- One `SpidevTransfer` (one segment of a transfer plan), with the fields
the program touches. In the spidev crate every field a constructor does not
set is zero-initialised (`..Default::default()`), so `speed_hz`,
`delay_usecs` and `cs_change` all start at 0. -/
structure SpidevTransfer where
  tx_buf : List Byte
  speed_hz : Nat
  delay_usecs : Nat
  cs_change : Nat
deriving DecidableEq

/-- `SpidevTransfer::write(tx)` from the spidev crate: a transfer with the
given transmit buffer and every other field zero. -/
def SpidevTransfer.write (tx : List Byte) : SpidevTransfer :=
  { tx_buf := tx, speed_hz := 0, delay_usecs := 0, cs_change := 0 }

/-- `SpidevTransfer::read_write(tx, rx)` from the spidev crate: a full-duplex
transfer with the given transmit buffer and every other field zero (the
receive buffer has the same length as `tx`; its contents are modelled at the
point of execution). -/
def SpidevTransfer.read_write (tx : List Byte) : SpidevTransfer :=
  { tx_buf := tx, speed_hz := 0, delay_usecs := 0, cs_change := 0 }

/-- The transfer plan built in each iteration of the repeat loop
(main.rs lines 226-247): with a pre-delay, a dummy empty write with
`cs_change = 0`, `delay_usecs = pre_delay` and the requested speed, followed
by the real full-duplex transfer at the requested speed; without one, just
the single full-duplex transfer at the requested speed. -/
def buildPlan (tx_buf : List Byte) (speed : Nat) (pre_delay : Option Nat) :
    List SpidevTransfer :=
  match pre_delay with
  | some d =>
    [{ SpidevTransfer.write [] with cs_change := 0, delay_usecs := d, speed_hz := speed },
     { SpidevTransfer.read_write tx_buf with speed_hz := speed }]
  | none =>
    [{ SpidevTransfer.read_write tx_buf with speed_hz := speed }]

/-- Modelled from the spec's data model (§3) and the Linux spidev contract
the code relies on: `select_change` of a segment says whether the bus-select
signal is released at the end of that segment. For the final segment of a
message the driver releases the select line by default (`cs_change = 0`
means the normal end-of-transaction release, so `select_change = true`);
on a non-final segment a zero `cs_change` keeps the select line asserted
into the next segment (`select_change = false`), while a nonzero one
releases it between the segments. -/
def selectChange (isLast : Bool) (t : SpidevTransfer) : Bool :=
  if isLast then t.cs_change == 0 else t.cs_change != 0

/-- An uppercase hexadecimal digit, as produced by Rust's `{:02X}`. -/
def hexDigit (n : Nat) : Char :=
  if n < 10 then Char.ofNat (48 + n) else Char.ofNat (55 + n)

/-- `write!(output, "{:02X}", byte)` (main.rs line 260): a byte as exactly
two uppercase hexadecimal digits (a `u8` is below 0x100, so `{:02X}` always
prints exactly two digits). -/
def formatHexByte (b : Byte) : String :=
  String.mk [hexDigit (b.val / 16), hexDigit (b.val % 16)]

/-- `write!(output, "{}", byte)` (main.rs line 269): the `Display` of a
`u8`, its decimal value with no leading zeros (1-3 digits for 0-255). -/
def formatDecByte (b : Byte) : String :=
  if b.val < 10 then
    String.mk [Char.ofNat (48 + b.val)]
  else if b.val < 100 then
    String.mk [Char.ofNat (48 + b.val / 10), Char.ofNat (48 + b.val % 10)]
  else
    String.mk [Char.ofNat (48 + b.val / 100), Char.ofNat (48 + b.val / 10 % 10),
      Char.ofNat (48 + b.val % 10)]

/-- `output.write_all(&rx_buf)` (main.rs line 253): the captured bytes,
verbatim, as a character string. -/
def rawString (rx : List Byte) : String :=
  String.mk (rx.map fun b => Char.ofNat b.val)

/-- The text produced by the formatting loop of main.rs lines 256-261 /
265-270 starting at index `i`: before every byte other than the first a
single space, then the rendered byte. -/
def formatLoop (render : Byte → String) : Nat → List Byte → String
  | _, [] => ""
  | i, b :: bs => (if i ≠ 0 then " " else "") ++ (render b ++ formatLoop render (i + 1) bs)

/-- One iteration's formatted output (main.rs lines 250-273): `Raw` writes
the captured bytes verbatim with no delimiters or newline; `Hexadecimal` and
`Decimal` run the separator loop and terminate with one `writeln!` newline. -/
def formatOutput (format : OutputFormat) (rx : List Byte) : String :=
  match format with
  | .Raw => rawString rx
  | .Hexadecimal => formatLoop formatHexByte 0 rx ++ "\n"
  | .Decimal => formatLoop formatDecByte 0 rx ++ "\n"

/-- Reference rendering following the spec's words: the rendered bytes
"separated by a single space, no leading/trailing space". -/
def specSeparated : List String → String
  | [] => ""
  | [x] => x
  | x :: xs => x ++ " " ++ specSeparated xs

/-- Reference rendering following the spec's words (§4.4): `Raw` is the
captured bytes verbatim; `Hexadecimal` and `Decimal` render each byte, join
the renderings with single spaces (no leading or trailing separator) and
terminate with exactly one newline, so an empty capture renders as just the
newline. -/
def specRender (format : OutputFormat) (rx : List Byte) : String :=
  match format with
  | .Raw => String.mk (rx.map fun b => Char.ofNat b.val)
  | .Hexadecimal => specSeparated (rx.map formatHexByte) ++ "\n"
  | .Decimal => specSeparated (rx.map formatDecByte) ++ "\n"

/-- The four bus settings configured by the four `spi.configure` calls of
main.rs lines 181-188, in call order. -/
inductive ConfigField where
  | bitsPerWord
  | maxSpeedHz
  | spiMode
  | chipSelect
deriving DecidableEq

/-- An observable event of a run: a successful `spi.configure` call with the
numeric value it applied, the lazy `isatty` query made by the format
resolution, a successful SPI transfer of a plan together with the bytes the
transfer left in the receive buffer, or a successful write of text to the
output sink. -/
inductive Event where
  | configured : ConfigField → Nat → Event
  | ttyCheck : Bool → Event
  | transfer : List SpidevTransfer → List Byte → Event
  | wrote : String → Event
deriving DecidableEq

/-- The already-parsed command-line options (struct `Options`,
main.rs lines 103-165). Paths are strings; `-` selects the standard
streams. -/
structure Options where
  spidev : String
  input : String
  output : String
  speed : Nat
  «repeat» : Nat
  format : Option OutputFormat
  mode : SpiMode
  chip_select : ChipSelect
  bits_per_word : Nat
  pre_delay : Option Nat

/-- The environment oracle: the outcome of every fallible call `do_main`
makes, and the data the outside world supplies. `some e` is a failure with
underlying error text `e`; `none` is success. `deviceByte k i` is the byte
the hardware leaves at position `i` of the receive buffer during iteration
`k`; `writeErr n` decides the fate of the `n`-th write call to the sink. -/
structure Env where
  openErr : Option String
  bitsErr : Option String
  speedErr : Option String
  modeErr : Option String
  csErr : Option String
  inputOpenErr : Option String
  outputOpenErr : Option String
  readErr : Option String
  inputBytes : List Byte
  isatty : Bool
  transferErr : Nat → Option String
  deviceByte : Nat → Nat → Byte
  writeErr : Nat → Option String

/-- The mutable state of a run: the chronological event trace, the receive
buffer (reused across iterations), and the count of sink-write calls made
so far. -/
structure RunSt where
  events : List Event
  rx_buf : List Byte
  wcalls : Nat

/-- One fallible write call to the output sink (the `map_err` shape of every
`write!`/`writeln!`/`write_all` in main.rs lines 250-273). -/
def writeOut (env : Env) (st : RunSt) (s : String) : RunSt × Option String :=
  match env.writeErr st.wcalls with
  | some e => (st, some ("Failed to write to output stream: " ++ e))
  | none => (⟨st.events ++ [.wrote s], st.rx_buf, st.wcalls + 1⟩, none)

/-- The formatting loop of main.rs lines 256-261 / 265-270 as write calls:
before every byte other than the first, a separate write of a single space,
then a write of the rendered byte. -/
def emitLoop (env : Env) (render : Byte → String) :
    Nat → List Byte → RunSt → RunSt × Option String
  | _, [], st => (st, none)
  | i, b :: bs, st =>
    match (if i ≠ 0 then writeOut env st " " else (st, none)) with
    | (st', some e) => (st', some e)
    | (st', none) =>
      match writeOut env st' (render b) with
      | (st₂, some e) => (st₂, some e)
      | (st₂, none) => emitLoop env render (i + 1) bs st₂

/-- Printing one iteration's received data (main.rs lines 250-273): `Raw`
writes the captured bytes in one `write_all`; `Hexadecimal` and `Decimal`
run the separator loop and finish with a `writeln!` newline. -/
def emitOutput (env : Env) (format : OutputFormat) (rx : List Byte) (st : RunSt) :
    RunSt × Option String :=
  match format with
  | .Raw => writeOut env st (rawString rx)
  | .Hexadecimal =>
    match emitLoop env formatHexByte 0 rx st with
    | (st', some e) => (st', some e)
    | (st', none) => writeOut env st' "\n"
  | .Decimal =>
    match emitLoop env formatDecByte 0 rx st with
    | (st', some e) => (st', some e)
    | (st', none) => writeOut env st' "\n"

/-- The bytes a successful transfer of iteration `k` leaves in a receive
buffer of length `n`: the kernel overwrites all `n` bytes with the data
clocked back from the device. -/
def capture (env : Env) (k n : Nat) : List Byte :=
  (List.range n).map (env.deviceByte k)

/-- One iteration of the repeat loop (main.rs lines 226-274): build the
plan, execute it against the handle (a failure aborts with the
"SPI transaction failed" error and no event), on success overwrite the
receive buffer in place with the captured bytes, record the transfer, and
print the received data in the resolved format. -/
def runIter (o : Options) (env : Env) (format : OutputFormat) (tx : List Byte)
    (k : Nat) (st : RunSt) : RunSt × Option String :=
  let plan := buildPlan tx o.speed o.pre_delay
  match env.transferErr k with
  | some e => (st, some ("SPI transaction failed: " ++ e))
  | none =>
    let rx := capture env k st.rx_buf.length
    emitOutput env format rx ⟨st.events ++ [.transfer plan rx], rx, st.wcalls⟩

/-- The repeat loop `for _ in 0..options.repeat` (main.rs line 226), at
iteration index `k` with `n` iterations left; any failure aborts the
remaining iterations. -/
def runLoop (o : Options) (env : Env) (format : OutputFormat) (tx : List Byte) :
    Nat → Nat → RunSt → RunSt × Option String
  | _, 0, st => (st, none)
  | k, n + 1, st =>
    match runIter o env format tx k st with
    | (st', some e) => (st', some e)
    | (st', none) => runLoop o env format tx (k + 1) n st'

/-- Output-format resolution (main.rs lines 218-224):
`options.format.unwrap_or_else(|| if isatty(output_fd) != 0 { Hexadecimal }
else { Raw })`. -/
def resolveFormat (explicit : Option OutputFormat) (tty : Bool) : OutputFormat :=
  explicit.getD (if tty then .Hexadecimal else .Raw)

/-- `do_main` (main.rs lines 175-277): open and configure the spidev handle
(four configure calls, each aborting on failure with a message naming the
setting and its value), open the input and output, read the whole transmit
payload, size the receive buffer to it, resolve the output format (querying
`isatty` only when no explicit format was given, thanks to
`unwrap_or_else`), then run the repeat loop. Returns the final state
(event trace) and `none` on success or the error message surfaced to
`main`. -/
def do_main (o : Options) (env : Env) : RunSt × Option String :=
  let st0 : RunSt := ⟨[], [], 0⟩
  match env.openErr with
  | some e => (st0, some ("Failed to open spidev " ++ o.spidev ++ ": " ++ e))
  | none =>
  match env.bitsErr with
  | some e => (st0, some ("Failed to set " ++ toString o.bits_per_word ++ " bits per word: " ++ e))
  | none =>
  let st1 : RunSt := ⟨st0.events ++ [.configured .bitsPerWord o.bits_per_word], [], 0⟩
  match env.speedErr with
  | some e => (st1, some ("Failed to max speed to " ++ toString o.speed ++ " Hz: " ++ e))
  | none =>
  let st2 : RunSt := ⟨st1.events ++ [.configured .maxSpeedHz o.speed], [], 0⟩
  match env.modeErr with
  | some e => (st2, some ("Failed to set SPI mode to " ++ toString o.mode.toU8 ++ ": " ++ e))
  | none =>
  let st3 : RunSt := ⟨st2.events ++ [.configured .spiMode o.mode.flags], [], 0⟩
  match env.csErr with
  | some e => (st3, some ("Failed to set chip select mode to " ++ o.chip_select.display ++ ": " ++ e))
  | none =>
  let st4 : RunSt := ⟨st3.events ++ [.configured .chipSelect o.chip_select.flags], [], 0⟩
  match (if o.input = "-" then none else env.inputOpenErr) with
  | some e => (st4, some ("Failed to open input file " ++ o.input ++ ": " ++ e))
  | none =>
  match (if o.output = "-" then none else env.outputOpenErr) with
  | some e => (st4, some ("Failed to create output file " ++ o.output ++ ": " ++ e))
  | none =>
  match env.readErr with
  | some e => (st4, some ("Failed to read input message: " ++ e))
  | none =>
  let tx_buf := env.inputBytes
  let st5 : RunSt := ⟨st4.events, List.replicate tx_buf.length (0 : Byte), 0⟩
  match o.format with
  | some f => runLoop o env f tx_buf 0 o.«repeat» st5
  | none =>
    let st6 : RunSt := ⟨st5.events ++ [.ttyCheck env.isatty], st5.rx_buf, 0⟩
    runLoop o env (if env.isatty then .Hexadecimal else .Raw) tx_buf 0 o.«repeat» st6

/-- `main` (main.rs lines 167-173): a `do_main` error is printed and the
process exits with status 1; otherwise the process exits with status 0. -/
def main_status (o : Options) (env : Env) : Nat :=
  match (do_main o env).2 with
  | some _ => 1
  | none => 0

/-- The text an event contributed to the output sink. -/
def Event.written : Event → String
  | .wrote s => s
  | _ => ""

/-- Whether an event is a successful transfer. -/
def Event.isTransfer : Event → Bool
  | .transfer _ _ => true
  | _ => false

/-- Whether an event is an `isatty` query. -/
def Event.isTty : Event → Bool
  | .ttyCheck _ => true
  | _ => false

/-- Everything the output sink received during a trace, in order. -/
def sinkOf : List Event → String
  | [] => ""
  | ev :: evs => ev.written ++ sinkOf evs

/-- The number of transfers executed in a trace. -/
def transferCount (evs : List Event) : Nat :=
  (evs.filter Event.isTransfer).length

/-- The number of `isatty` queries in a trace. -/
def ttyCount (evs : List Event) : Nat :=
  (evs.filter Event.isTty).length

/-- The four configure events of a successful configuration phase, in call
order, with the values main.rs lines 181-188 apply. -/
def cfgEvents (o : Options) : List Event :=
  [.configured .bitsPerWord o.bits_per_word,
   .configured .maxSpeedHz o.speed,
   .configured .spiMode o.mode.flags,
   .configured .chipSelect o.chip_select.flags]

/-- The strings the output loop writes for one capture, as separate write
calls: Raw is one `write_all`; Hexadecimal and Decimal write separators,
rendered bytes and the final newline one call each. -/
def pieceLoop (render : Byte → String) : Nat → List Byte → List String
  | _, [] => []
  | i, b :: bs => (if i ≠ 0 then [" "] else []) ++ render b :: pieceLoop render (i + 1) bs

/-- All write calls of one iteration's output, in order. -/
def outPieces (format : OutputFormat) (rx : List Byte) : List String :=
  match format with
  | .Raw => [rawString rx]
  | .Hexadecimal => pieceLoop formatHexByte 0 rx ++ ["\n"]
  | .Decimal => pieceLoop formatDecByte 0 rx ++ ["\n"]

/-- The events of one fully successful iteration: the transfer, then the
write of each output piece. -/
def iterEvents (plan : List SpidevTransfer) (format : OutputFormat) (rx : List Byte) :
    List Event :=
  .transfer plan rx :: (outPieces format rx).map Event.wrote

/-- The events of `n` fully successful iterations starting at iteration
`k`, against a receive buffer of length `L`. -/
def blockEvents (plan : List SpidevTransfer) (format : OutputFormat) (env : Env)
    (L : Nat) : Nat → Nat → List Event
  | _, 0 => []
  | k, n + 1 =>
    iterEvents plan format (capture env k L) ++ blockEvents plan format env L (k + 1) n

/-- The concatenated formatted output of `n` successful iterations starting
at iteration `k`: one formatted block per iteration, in iteration order,
each a function of that iteration's capture only. -/
def blocksOut (format : OutputFormat) (env : Env) (L : Nat) : Nat → Nat → String
  | _, 0 => ""
  | k, n + 1 => formatOutput format (capture env k L) ++ blocksOut format env L (k + 1) n

/-- The events one loop iteration can add: a transfer of the plan for this
payload whose capture has the receive buffer's length, or sink writes; the
receive buffer's length is preserved. -/
def LoopTail (o : Options) (tx : List Byte) (L : Nat) (ev : Event) : Prop :=
  (∃ rx, ev = Event.transfer (buildPlan tx o.speed o.pre_delay) rx ∧ rx.length = L) ∨
  ∃ u, ev = Event.wrote u

/-- Concatenation of a list of strings. -/
def joinAll : List String → String
  | [] => ""
  | s :: ss => s ++ joinAll ss

/-- The trace the format-resolution step adds: querying `isatty` happens
only when no explicit format was given (`unwrap_or_else` is lazy). -/
def ttyEvents (o : Options) (env : Env) : List Event :=
  match o.format with
  | some _ => []
  | none => [Event.ttyCheck env.isatty]

/-- A concrete invocation: payload "AB", forced hexadecimal format,
repeat 2, everything succeeding. -/
def opts1 : Options :=
  ⟨"/dev/spidev0.0", "-", "-", 1000000, 2, some .Hexadecimal, .M0, .ActiveLow, 8, none⟩

/-- An environment where every call succeeds and the device always answers
0x41. -/
def env1 : Env :=
  ⟨none, none, none, none, none, none, none, none, [0x41, 0x42], false,
    fun _ => none, fun _ _ => 0x41, fun _ => none⟩

/-- A concrete invocation with an empty payload and forced `Raw` format. -/
def opts2 : Options :=
  ⟨"/dev/spidev0.0", "-", "-", 1000000, 1, some .Raw, .M0, .ActiveLow, 8, none⟩

/-- An all-success environment whose input is empty. -/
def env2 : Env :=
  ⟨none, none, none, none, none, none, none, none, [], false,
    fun _ => none, fun _ _ => 0, fun _ => none⟩

/-- A concrete invocation with repeat 3 and forced decimal format. -/
def opts3 : Options :=
  ⟨"/dev/spidev0.0", "-", "-", 1000000, 3, some .Decimal, .M0, .ActiveLow, 8, none⟩

/-- An environment whose transfer fails at iteration 1 with "EIO". -/
def env3 : Env :=
  ⟨none, none, none, none, none, none, none, none, [0x41], false,
    fun k => if k = 1 then some "EIO" else none, fun _ _ => 0, fun _ => none⟩

/-- A concrete invocation requesting 12 bits per word. -/
def opts4 : Options :=
  ⟨"/dev/spidev0.0", "-", "-", 1000000, 1, some .Raw, .M0, .ActiveLow, 12, none⟩

/-- An environment whose bits-per-word configuration call is rejected. -/
def env4 : Env :=
  ⟨none, some "Invalid argument", none, none, none, none, none, none, [], false,
    fun _ => none, fun _ _ => 0, fun _ => none⟩

/-! ## Theorems -/

theorem str_append_assoc (a b c : String) : a ++ b ++ c = a ++ (b ++ c) := by
  apply String.ext
  simp [String.data_append, List.append_assoc]

theorem formatLoop_shift (render : Byte → String) :
    ∀ (bs : List Byte) (i j : Nat), i ≠ 0 → j ≠ 0 →
      formatLoop render i bs = formatLoop render j bs := by
  intro bs
  induction bs with
  | nil => intro i j _ _; rfl
  | cons b bs ih =>
    intro i j hi hj
    simp only [formatLoop, if_pos hi, if_pos hj]
    rw [ih (i + 1) (j + 1) (Nat.succ_ne_zero i) (Nat.succ_ne_zero j)]

theorem specSeparated_formatLoop (render : Byte → String) :
    ∀ (bs : List Byte) (b : Byte),
      specSeparated ((b :: bs).map render) = render b ++ formatLoop render 1 bs := by
  intro bs
  induction bs with
  | nil =>
    intro b
    show render b = render b ++ ""
    apply String.ext
    simp [String.data_append]
  | cons c cs ih =>
    intro b
    show render b ++ " " ++ specSeparated ((c :: cs).map render) = _
    rw [ih c]
    show _ = render b ++ ((if (1 : Nat) ≠ 0 then " " else "") ++ (render c ++ formatLoop render 2 cs))
    rw [if_pos (Nat.one_ne_zero)]
    rw [formatLoop_shift render cs 2 1 (by omega) (by omega)]
    rw [str_append_assoc]

theorem formatLoop_specSeparated (render : Byte → String) (bs : List Byte) :
    formatLoop render 0 bs = specSeparated (bs.map render) := by
  cases bs with
  | nil => rfl
  | cons b bs =>
    rw [specSeparated_formatLoop render bs b]
    show (if (0 : Nat) ≠ 0 then " " else "") ++ (render b ++ formatLoop render 1 bs) = _
    rw [if_neg (by omega)]
    apply String.ext
    simp [String.data_append]

/-- C1: TransferPlan construction. With no pre-delay the plan is a single
segment carrying the payload at the requested speed, with the default
end-of-transaction select release (`select_change = true`) and no delay.
With a pre-delay the plan has exactly two segments: the first with empty
payload, `select_change = false` (the select line stays asserted into the
real transfer) and `delay_after_us = pre_delay`; the second carrying the
full payload with `select_change = true` and no added delay; both segments
carry the requested `speed_hz`. -/
theorem transfer_plan_construction (payload : List Byte) (speed : Nat) :
    (∃ s, buildPlan payload speed none = [s] ∧
      s.tx_buf = payload ∧ s.speed_hz = speed ∧
      selectChange true s = true ∧ s.delay_usecs = 0) ∧
    (∀ d : Nat, ∃ s₁ s₂, buildPlan payload speed (some d) = [s₁, s₂] ∧
      s₁.tx_buf = [] ∧ selectChange false s₁ = false ∧ s₁.delay_usecs = d ∧
      s₂.tx_buf = payload ∧ selectChange true s₂ = true ∧ s₂.delay_usecs = 0 ∧
      s₁.speed_hz = speed ∧ s₂.speed_hz = speed) := by
  constructor
  · exact ⟨_, rfl, rfl, rfl, rfl, rfl⟩
  · intro d
    exact ⟨_, _, rfl, rfl, rfl, rfl, rfl, rfl, rfl, rfl, rfl⟩

/-- C3: For every capture and format the formatter's output equals the
reference rendering (Raw verbatim; Hexadecimal/Decimal space-separated with
one terminating newline, empty capture rendering as just the newline), and
in particular capture 0x41 0x42 renders as "41 42\n" in Hexadecimal and
"65 66\n" in Decimal. -/
theorem formatter_matches_reference :
    (∀ (format : OutputFormat) (rx : List Byte), formatOutput format rx = specRender format rx) ∧
    formatOutput .Hexadecimal [(0x41 : Byte), 0x42] = "41 42\n" ∧
    formatOutput .Decimal [(0x41 : Byte), 0x42] = "65 66\n" ∧
    formatOutput .Hexadecimal [] = "\n" ∧
    formatOutput .Decimal [] = "\n" := by
  refine ⟨?_, by decide, by decide, by decide, by decide⟩
  intro format rx
  cases format with
  | Raw => rfl
  | Hexadecimal =>
    show formatLoop formatHexByte 0 rx ++ "\n" = specSeparated (rx.map formatHexByte) ++ "\n"
    rw [formatLoop_specSeparated]
  | Decimal =>
    show formatLoop formatDecByte 0 rx ++ "\n" = specSeparated (rx.map formatDecByte) ++ "\n"
    rw [formatLoop_specSeparated]

theorem capture_length (env : Env) (k n : Nat) : (capture env k n).length = n := by
  simp [capture]

theorem writeOut_shape (env : Env) (st : RunSt) (s : String) :
    ∃ t, (writeOut env st s).1.events = st.events ++ t ∧
      (∀ ev ∈ t, ∃ u, ev = Event.wrote u) ∧
      (writeOut env st s).1.rx_buf = st.rx_buf := by
  cases h : env.writeErr st.wcalls
  · exact ⟨[Event.wrote s], by simp [writeOut, h], by simp, by simp [writeOut, h]⟩
  · exact ⟨[], by simp [writeOut, h], by simp, by simp [writeOut, h]⟩

theorem emitLoop_shape (env : Env) (render : Byte → String) :
    ∀ (bs : List Byte) (i : Nat) (st : RunSt),
      ∃ t, (emitLoop env render i bs st).1.events = st.events ++ t ∧
        (∀ ev ∈ t, ∃ u, ev = Event.wrote u) ∧
        (emitLoop env render i bs st).1.rx_buf = st.rx_buf := by
  intro bs
  induction bs with
  | nil => intro i st; exact ⟨[], by simp [emitLoop], by simp, by simp [emitLoop]⟩
  | cons b bs ih =>
    intro i st
    have sep_shape : ∀ st' r, (if i ≠ 0 then writeOut env st " " else (st, none)) = (st', r) →
        ∃ t₁, st'.events = st.events ++ t₁ ∧
          (∀ ev ∈ t₁, ∃ u, ev = Event.wrote u) ∧ st'.rx_buf = st.rx_buf := by
      intro st' r hsep
      by_cases hi : i ≠ 0
      · obtain ⟨t₁, he, hw, hr⟩ := writeOut_shape env st " "
        rw [if_pos hi] at hsep
        rw [hsep] at he hr
        dsimp only at he hr
        exact ⟨t₁, he, hw, hr⟩
      · rw [if_neg hi] at hsep
        cases hsep
        exact ⟨[], by simp, by simp, rfl⟩
    simp only [emitLoop]
    split
    next st' e heq =>
      exact sep_shape st' (some e) heq
    next st' heq =>
      obtain ⟨t₁, h₁e, h₁w, h₁r⟩ := sep_shape st' none heq
      split
      next st₂ e heq₂ =>
        obtain ⟨t₂, h₂e, h₂w, h₂r⟩ := writeOut_shape env st' (render b)
        rw [heq₂] at h₂e h₂r
        dsimp only at h₂e h₂r
        refine ⟨t₁ ++ t₂, by simp [h₂e, h₁e], ?_, by simp [h₂r, h₁r]⟩
        intro ev hev
        rcases List.mem_append.mp hev with hev | hev
        · exact h₁w ev hev
        · exact h₂w ev hev
      next st₂ heq₂ =>
        obtain ⟨t₂, h₂e, h₂w, h₂r⟩ := writeOut_shape env st' (render b)
        rw [heq₂] at h₂e h₂r
        dsimp only at h₂e h₂r
        obtain ⟨t₃, h₃e, h₃w, h₃r⟩ := ih (i + 1) st₂
        refine ⟨t₁ ++ t₂ ++ t₃, by simp [h₃e, h₂e, h₁e], ?_, by simp [h₃r, h₂r, h₁r]⟩
        intro ev hev
        rcases List.mem_append.mp hev with hev | hev
        · rcases List.mem_append.mp hev with hev | hev
          · exact h₁w ev hev
          · exact h₂w ev hev
        · exact h₃w ev hev

theorem emitOutput_shape (env : Env) (format : OutputFormat) (rx : List Byte) (st : RunSt) :
    ∃ t, (emitOutput env format rx st).1.events = st.events ++ t ∧
      (∀ ev ∈ t, ∃ u, ev = Event.wrote u) ∧
      (emitOutput env format rx st).1.rx_buf = st.rx_buf := by
  cases format with
  | Raw => exact writeOut_shape env st (rawString rx)
  | Hexadecimal =>
    simp only [emitOutput]
    split
    next st' e heq =>
      obtain ⟨t₁, h₁e, h₁w, h₁r⟩ := emitLoop_shape env formatHexByte rx 0 st
      rw [heq] at h₁e h₁r
      dsimp only at h₁e h₁r
      exact ⟨t₁, h₁e, h₁w, h₁r⟩
    next st' heq =>
      obtain ⟨t₁, h₁e, h₁w, h₁r⟩ := emitLoop_shape env formatHexByte rx 0 st
      rw [heq] at h₁e h₁r
      dsimp only at h₁e h₁r
      obtain ⟨t₂, h₂e, h₂w, h₂r⟩ := writeOut_shape env st' "\n"
      refine ⟨t₁ ++ t₂, by simp [h₂e, h₁e], ?_, by simp [h₂r, h₁r]⟩
      intro ev hev
      rcases List.mem_append.mp hev with hev | hev
      · exact h₁w ev hev
      · exact h₂w ev hev
  | Decimal =>
    simp only [emitOutput]
    split
    next st' e heq =>
      obtain ⟨t₁, h₁e, h₁w, h₁r⟩ := emitLoop_shape env formatDecByte rx 0 st
      rw [heq] at h₁e h₁r
      dsimp only at h₁e h₁r
      exact ⟨t₁, h₁e, h₁w, h₁r⟩
    next st' heq =>
      obtain ⟨t₁, h₁e, h₁w, h₁r⟩ := emitLoop_shape env formatDecByte rx 0 st
      rw [heq] at h₁e h₁r
      dsimp only at h₁e h₁r
      obtain ⟨t₂, h₂e, h₂w, h₂r⟩ := writeOut_shape env st' "\n"
      refine ⟨t₁ ++ t₂, by simp [h₂e, h₁e], ?_, by simp [h₂r, h₁r]⟩
      intro ev hev
      rcases List.mem_append.mp hev with hev | hev
      · exact h₁w ev hev
      · exact h₂w ev hev

theorem runIter_shape (o : Options) (env : Env) (format : OutputFormat)
    (tx : List Byte) (k : Nat) (st : RunSt) :
    ∃ t, (runIter o env format tx k st).1.events = st.events ++ t ∧
      (∀ ev ∈ t, LoopTail o tx st.rx_buf.length ev) ∧
      (runIter o env format tx k st).1.rx_buf.length = st.rx_buf.length := by
  cases ht : env.transferErr k with
  | some e => exact ⟨[], by simp [runIter, ht], by simp, by simp [runIter, ht]⟩
  | none =>
    obtain ⟨t, he, hw, hr⟩ := emitOutput_shape env format (capture env k st.rx_buf.length)
      ⟨st.events ++ [.transfer (buildPlan tx o.speed o.pre_delay) (capture env k st.rx_buf.length)],
        capture env k st.rx_buf.length, st.wcalls⟩
    refine ⟨Event.transfer (buildPlan tx o.speed o.pre_delay)
      (capture env k st.rx_buf.length) :: t, ?_, ?_, ?_⟩
    · simp only [runIter, ht]
      rw [he]
      simp
    · intro ev hev
      rcases List.mem_cons.mp hev with hev | hev
      · exact Or.inl ⟨_, hev, capture_length env k st.rx_buf.length⟩
      · exact Or.inr (hw ev hev)
    · simp only [runIter, ht]
      rw [hr]
      simp [capture_length]

theorem runLoop_shape (o : Options) (env : Env) (format : OutputFormat) (tx : List Byte) :
    ∀ (n k : Nat) (st : RunSt),
      ∃ t, (runLoop o env format tx k n st).1.events = st.events ++ t ∧
        (∀ ev ∈ t, LoopTail o tx st.rx_buf.length ev) ∧
        (runLoop o env format tx k n st).1.rx_buf.length = st.rx_buf.length := by
  intro n
  induction n with
  | zero => intro k st; exact ⟨[], by simp [runLoop], by simp, by simp [runLoop]⟩
  | succ n ih =>
    intro k st
    simp only [runLoop]
    split
    next st' e heq =>
      obtain ⟨t₁, h₁e, h₁w, h₁r⟩ := runIter_shape o env format tx k st
      rw [heq] at h₁e h₁r
      dsimp only at h₁e h₁r
      exact ⟨t₁, h₁e, h₁w, h₁r⟩
    next st' heq =>
      obtain ⟨t₁, h₁e, h₁w, h₁r⟩ := runIter_shape o env format tx k st
      rw [heq] at h₁e h₁r
      dsimp only at h₁e h₁r
      obtain ⟨t₂, h₂e, h₂w, h₂r⟩ := ih (k + 1) st'
      refine ⟨t₁ ++ t₂, by simp [h₂e, h₁e], ?_, by simp [h₂r, h₁r]⟩
      intro ev hev
      rcases List.mem_append.mp hev with hev | hev
      · exact h₁w ev hev
      · exact h₁r ▸ h₂w ev hev

theorem split_skip {α : Type} : ∀ (a l₁ b l₂ : List α) (x : α),
    a ++ b = l₁ ++ x :: l₂ → x ∉ a → ∃ l', l₁ = a ++ l' ∧ b = l' ++ x :: l₂ := by
  intro a
  induction a with
  | nil =>
    intro l₁ b l₂ x h _
    exact ⟨l₁, by simp, by simpa using h⟩
  | cons y ys ih =>
    intro l₁ b l₂ x h hx
    cases l₁ with
    | nil =>
      simp only [List.cons_append, List.nil_append] at h
      injection h with h1 h2
      exact absurd (by rw [← h1]; exact List.mem_cons_self y ys) hx
    | cons z zs =>
      simp only [List.cons_append] at h
      injection h with h1 h2
      obtain ⟨l', hl, hb⟩ := ih zs b l₂ x h2 (fun hm => hx (List.mem_cons_of_mem y hm))
      exact ⟨l', by rw [List.cons_append, ← h1, hl], hb⟩

/-- Master decomposition of a `do_main` trace under an arbitrary
environment: either the run stopped before the loop and the trace is a
prefix of the four configure events, or configuration succeeded and the
trace is the four configure events, then possibly one `isatty` query, then
loop events only (transfers of the built plan whose captures have the
payload's length, and sink writes). -/
theorem do_main_split (o : Options) (env : Env) :
    (∃ j, j ≤ 4 ∧ (do_main o env).1.events = (cfgEvents o).take j) ∨
    (∃ mid t, (do_main o env).1.events = cfgEvents o ++ (mid ++ t) ∧
      (mid = [] ∨ mid = [Event.ttyCheck env.isatty]) ∧
      ∀ ev ∈ t, LoopTail o env.inputBytes env.inputBytes.length ev) := by
  unfold do_main
  split
  next e heq => exact Or.inl ⟨0, by omega, rfl⟩
  next hOpen =>
  split
  next e heq => exact Or.inl ⟨0, by omega, rfl⟩
  next hBits =>
  split
  next e heq => exact Or.inl ⟨1, by omega, by simp [cfgEvents]⟩
  next hSpeed =>
  split
  next e heq => exact Or.inl ⟨2, by omega, by simp [cfgEvents]⟩
  next hMode =>
  split
  next e heq => exact Or.inl ⟨3, by omega, by simp [cfgEvents]⟩
  next hCs =>
  split
  next e heq => exact Or.inl ⟨4, by omega, by simp [cfgEvents]⟩
  next hIn =>
  split
  next e heq => exact Or.inl ⟨4, by omega, by simp [cfgEvents]⟩
  next hOut =>
  split
  next e heq => exact Or.inl ⟨4, by omega, by simp [cfgEvents]⟩
  next hRead =>
  split
  next f hf =>
    obtain ⟨t, he, hw, hr⟩ := runLoop_shape o env f env.inputBytes o.«repeat» 0
      ⟨[] ++ [.configured .bitsPerWord o.bits_per_word] ++ [.configured .maxSpeedHz o.speed] ++
        [.configured .spiMode o.mode.flags] ++ [.configured .chipSelect o.chip_select.flags],
       List.replicate env.inputBytes.length (0 : Byte), 0⟩
    refine Or.inr ⟨[], t, ?_, Or.inl rfl, ?_⟩
    · rw [he]; simp [cfgEvents]
    · intro ev hev
      have := hw ev hev
      simpa using this
  next hf =>
    obtain ⟨t, he, hw, hr⟩ := runLoop_shape o env (if env.isatty then .Hexadecimal else .Raw)
      env.inputBytes o.«repeat» 0
      ⟨([] ++ [.configured .bitsPerWord o.bits_per_word] ++ [.configured .maxSpeedHz o.speed] ++
        [.configured .spiMode o.mode.flags] ++ [.configured .chipSelect o.chip_select.flags]) ++
        [.ttyCheck env.isatty],
       List.replicate env.inputBytes.length (0 : Byte), 0⟩
    refine Or.inr ⟨[Event.ttyCheck env.isatty], t, ?_, Or.inr rfl, ?_⟩
    · rw [he]; simp [cfgEvents]
    · intro ev hev
      have := hw ev hev
      simpa using this

/-- C2: before any transfer is issued, all four bus settings
(bits per word, max speed, SPI mode, chip-select mode) have been
successfully applied to the handle — every transfer event in a trace is
preceded by the four configure events with the requested values, and no
transfer is attempted unless every configure call succeeded. -/
theorem configuration_precedes_transfers (o : Options) (env : Env)
    (l₁ l₂ : List Event) (p : List SpidevTransfer) (rx : List Byte)
    (h : (do_main o env).1.events = l₁ ++ Event.transfer p rx :: l₂) :
    Event.configured .bitsPerWord o.bits_per_word ∈ l₁ ∧
    Event.configured .maxSpeedHz o.speed ∈ l₁ ∧
    Event.configured .spiMode o.mode.flags ∈ l₁ ∧
    Event.configured .chipSelect o.chip_select.flags ∈ l₁ := by
  rcases do_main_split o env with ⟨j, _, hev⟩ | ⟨mid, t, hev, _, _⟩
  · exfalso
    have hm : Event.transfer p rx ∈ (do_main o env).1.events := by
      rw [h]; exact List.mem_append_right _ (List.mem_cons_self _ _)
    rw [hev] at hm
    have := List.take_subset j (cfgEvents o) hm
    simp [cfgEvents] at this
  · rw [hev] at h
    obtain ⟨l', hl, _⟩ := split_skip (cfgEvents o) l₁ (mid ++ t) l₂
      (Event.transfer p rx) h (by simp [cfgEvents])
    subst hl
    refine ⟨?_, ?_, ?_, ?_⟩ <;> exact List.mem_append_left _ (by simp [cfgEvents])

/-- C5: every capture has the transmitted payload's length — each transfer
event in a trace carries a receive buffer exactly as long as the payload
read from the input, and its plan is the plan built from that payload. -/
theorem capture_has_payload_length (o : Options) (env : Env)
    (p : List SpidevTransfer) (rx : List Byte)
    (h : Event.transfer p rx ∈ (do_main o env).1.events) :
    rx.length = env.inputBytes.length ∧
    p = buildPlan env.inputBytes o.speed o.pre_delay := by
  rcases do_main_split o env with ⟨j, _, hev⟩ | ⟨mid, t, hev, hmid, ht⟩
  · exfalso
    rw [hev] at h
    have := List.take_subset j (cfgEvents o) h
    simp [cfgEvents] at this
  · rw [hev] at h
    rcases List.mem_append.mp h with h | h
    · exact absurd h (by simp [cfgEvents])
    · rcases List.mem_append.mp h with h | h
      · rcases hmid with rfl | rfl
        · simp at h
        · simp at h
      · rcases ht _ h with ⟨rx', heq, hlen⟩ | ⟨u, heq⟩
        · injection heq with h1 h2
          subst h1
          subst h2
          exact ⟨hlen, rfl⟩
        · exact absurd heq (by simp)

theorem str_empty_append (s : String) : "" ++ s = s := by
  apply String.ext
  simp [String.data_append]

theorem str_append_empty (s : String) : s ++ "" = s := by
  apply String.ext
  simp [String.data_append]

theorem joinAll_append (a b : List String) : joinAll (a ++ b) = joinAll a ++ joinAll b := by
  induction a with
  | nil => simp [joinAll, str_empty_append]
  | cons s ss ih => simp [joinAll, ih, str_append_assoc]

theorem sinkOf_append (a b : List Event) : sinkOf (a ++ b) = sinkOf a ++ sinkOf b := by
  induction a with
  | nil => simp [sinkOf, str_empty_append]
  | cons ev evs ih => simp [sinkOf, ih, str_append_assoc]

theorem sinkOf_map_wrote (ps : List String) : sinkOf (ps.map Event.wrote) = joinAll ps := by
  induction ps with
  | nil => rfl
  | cons s ss ih => simp [sinkOf, joinAll, Event.written, ih]

theorem joinAll_pieceLoop (render : Byte → String) :
    ∀ (bs : List Byte) (i : Nat), joinAll (pieceLoop render i bs) = formatLoop render i bs := by
  intro bs
  induction bs with
  | nil => intro i; rfl
  | cons b bs ih =>
    intro i
    by_cases hi : i ≠ 0
    · simp [pieceLoop, formatLoop, if_pos hi, joinAll, ih, str_append_assoc]
    · simp [pieceLoop, formatLoop, if_neg hi, joinAll, ih, str_empty_append]

theorem joinAll_outPieces (format : OutputFormat) (rx : List Byte) :
    joinAll (outPieces format rx) = formatOutput format rx := by
  cases format with
  | Raw => simp [outPieces, joinAll, formatOutput, str_append_empty]
  | Hexadecimal =>
    simp [outPieces, joinAll_append, joinAll, formatOutput, joinAll_pieceLoop,
      str_append_empty]
  | Decimal =>
    simp [outPieces, joinAll_append, joinAll, formatOutput, joinAll_pieceLoop,
      str_append_empty]

theorem sinkOf_iterEvents (plan : List SpidevTransfer) (format : OutputFormat)
    (rx : List Byte) :
    sinkOf (iterEvents plan format rx) = formatOutput format rx := by
  simp [iterEvents, sinkOf, Event.written, sinkOf_map_wrote, joinAll_outPieces,
    str_empty_append]

theorem sinkOf_blockEvents (plan : List SpidevTransfer) (format : OutputFormat)
    (env : Env) (L : Nat) :
    ∀ (n k : Nat), sinkOf (blockEvents plan format env L k n) = blocksOut format env L k n := by
  intro n
  induction n with
  | zero => intro k; rfl
  | succ n ih =>
    intro k
    simp [blockEvents, blocksOut, sinkOf_append, sinkOf_iterEvents, ih]

theorem transferCount_append (a b : List Event) :
    transferCount (a ++ b) = transferCount a + transferCount b := by
  simp [transferCount, List.filter_append]

theorem transferCount_map_wrote (ps : List String) :
    transferCount (ps.map Event.wrote) = 0 := by
  induction ps with
  | nil => rfl
  | cons s ss ih => simp [transferCount, Event.isTransfer, List.filter]

theorem transferCount_blockEvents (plan : List SpidevTransfer) (format : OutputFormat)
    (env : Env) (L : Nat) :
    ∀ (n k : Nat), transferCount (blockEvents plan format env L k n) = n := by
  intro n
  induction n with
  | zero => intro k; rfl
  | succ n ih =>
    intro k
    have h1 : transferCount (iterEvents plan format (capture env k L)) = 1 := by
      show transferCount ([Event.transfer plan (capture env k L)] ++
        (outPieces format (capture env k L)).map Event.wrote) = 1
      rw [transferCount_append, transferCount_map_wrote]
      rfl
    simp [blockEvents, transferCount_append, h1, ih]
    omega

theorem writeOut_ok (env : Env) (st : RunSt) (s : String)
    (h : env.writeErr st.wcalls = none) :
    writeOut env st s = (⟨st.events ++ [.wrote s], st.rx_buf, st.wcalls + 1⟩, none) := by
  simp [writeOut, h]

theorem emitLoop_ok (env : Env) (render : Byte → String)
    (hW : ∀ n, env.writeErr n = none) :
    ∀ (bs : List Byte) (i : Nat) (st : RunSt),
      ∃ w, emitLoop env render i bs st =
        (⟨st.events ++ (pieceLoop render i bs).map Event.wrote, st.rx_buf, w⟩, none) := by
  intro bs
  induction bs with
  | nil => intro i st; exact ⟨st.wcalls, by simp [emitLoop, pieceLoop]⟩
  | cons b bs ih =>
    intro i st
    by_cases hi : i ≠ 0
    · obtain ⟨w, hw⟩ := ih (i + 1)
        ⟨st.events ++ [Event.wrote " "] ++ [Event.wrote (render b)], st.rx_buf,
          st.wcalls + 1 + 1⟩
      refine ⟨w, ?_⟩
      simp only [emitLoop, if_pos hi]
      rw [writeOut_ok env st " " (hW _)]
      dsimp only
      rw [writeOut_ok env _ (render b) (hW _)]
      dsimp only
      rw [hw]
      simp [pieceLoop, if_pos hi, List.append_assoc]
    · obtain ⟨w, hw⟩ := ih (i + 1)
        ⟨st.events ++ [Event.wrote (render b)], st.rx_buf, st.wcalls + 1⟩
      refine ⟨w, ?_⟩
      simp only [emitLoop, if_neg hi]
      rw [writeOut_ok env st (render b) (hW _)]
      dsimp only
      rw [hw]
      simp [pieceLoop, if_neg hi, List.append_assoc]

theorem emitOutput_ok (env : Env) (format : OutputFormat) (rx : List Byte) (st : RunSt)
    (hW : ∀ n, env.writeErr n = none) :
    ∃ w, emitOutput env format rx st =
      (⟨st.events ++ (outPieces format rx).map Event.wrote, st.rx_buf, w⟩, none) := by
  cases format with
  | Raw =>
    refine ⟨st.wcalls + 1, ?_⟩
    simp only [emitOutput, outPieces]
    rw [writeOut_ok env st (rawString rx) (hW _)]
    simp
  | Hexadecimal =>
    obtain ⟨w, hw⟩ := emitLoop_ok env formatHexByte hW rx 0 st
    refine ⟨w + 1, ?_⟩
    simp only [emitOutput]
    rw [hw]
    dsimp only
    rw [writeOut_ok env _ "\n" (hW _)]
    simp [outPieces, List.append_assoc]
  | Decimal =>
    obtain ⟨w, hw⟩ := emitLoop_ok env formatDecByte hW rx 0 st
    refine ⟨w + 1, ?_⟩
    simp only [emitOutput]
    rw [hw]
    dsimp only
    rw [writeOut_ok env _ "\n" (hW _)]
    simp [outPieces, List.append_assoc]

theorem runIter_ok (o : Options) (env : Env) (format : OutputFormat) (tx : List Byte)
    (k : Nat) (st : RunSt) (hW : ∀ n, env.writeErr n = none)
    (hT : env.transferErr k = none) :
    ∃ w, runIter o env format tx k st =
      (⟨st.events ++ iterEvents (buildPlan tx o.speed o.pre_delay) format
          (capture env k st.rx_buf.length),
        capture env k st.rx_buf.length, w⟩, none) := by
  obtain ⟨w, hw⟩ := emitOutput_ok env format (capture env k st.rx_buf.length)
    ⟨st.events ++ [.transfer (buildPlan tx o.speed o.pre_delay)
        (capture env k st.rx_buf.length)],
      capture env k st.rx_buf.length, st.wcalls⟩ hW
  refine ⟨w, ?_⟩
  simp only [runIter, hT]
  rw [hw]
  simp [iterEvents, List.append_assoc]

theorem runLoop_ok (o : Options) (env : Env) (format : OutputFormat) (tx : List Byte)
    (hW : ∀ n, env.writeErr n = none) (hT : ∀ j, env.transferErr j = none) :
    ∀ (n k : Nat) (st : RunSt),
      ∃ w rb, runLoop o env format tx k n st =
        (⟨st.events ++ blockEvents (buildPlan tx o.speed o.pre_delay) format env
            st.rx_buf.length k n, rb, w⟩, none) ∧
        rb.length = st.rx_buf.length := by
  intro n
  induction n with
  | zero =>
    intro k st
    exact ⟨st.wcalls, st.rx_buf, by simp [runLoop, blockEvents], rfl⟩
  | succ n ih =>
    intro k st
    obtain ⟨w₁, h₁⟩ := runIter_ok o env format tx k st hW (hT k)
    obtain ⟨w₂, rb, h₂, hlen⟩ := ih (k + 1)
      ⟨st.events ++ iterEvents (buildPlan tx o.speed o.pre_delay) format
          (capture env k st.rx_buf.length),
        capture env k st.rx_buf.length, w₁⟩
    refine ⟨w₂, rb, ?_, ?_⟩
    · simp only [runLoop]
      rw [h₁]
      dsimp only
      rw [h₂]
      simp [blockEvents, capture_length, List.append_assoc]
    · rw [hlen]
      simp [capture_length]

theorem runLoop_fail (o : Options) (env : Env) (format : OutputFormat) (tx : List Byte)
    (hW : ∀ n, env.writeErr n = none) (i : Nat) (e : String)
    (hTi : env.transferErr i = some e)
    (hT : ∀ j, j < i → env.transferErr j = none) :
    ∀ (n k : Nat) (st : RunSt), k ≤ i → i < k + n →
      ∃ w rb, runLoop o env format tx k n st =
        (⟨st.events ++ blockEvents (buildPlan tx o.speed o.pre_delay) format env
            st.rx_buf.length k (i - k), rb, w⟩,
          some ("SPI transaction failed: " ++ e)) := by
  intro n
  induction n with
  | zero => intro k st hk hlt; omega
  | succ n ih =>
    intro k st hk hlt
    by_cases hki : k = i
    · subst hki
      refine ⟨st.wcalls, st.rx_buf, ?_⟩
      simp only [runLoop, runIter, hTi]
      simp [blockEvents, Nat.sub_self]
    · have hklt : k < i := by omega
      obtain ⟨w₁, h₁⟩ := runIter_ok o env format tx k st hW (hT k hklt)
      obtain ⟨w₂, rb, h₂⟩ := ih (k + 1)
        ⟨st.events ++ iterEvents (buildPlan tx o.speed o.pre_delay) format
            (capture env k st.rx_buf.length),
          capture env k st.rx_buf.length, w₁⟩ (by omega) (by omega)
      refine ⟨w₂, rb, ?_⟩
      simp only [runLoop]
      rw [h₁]
      dsimp only
      rw [h₂]
      have hik : i - k = (i - (k + 1)) + 1 := by omega
      rw [hik]
      simp [blockEvents, capture_length, List.append_assoc]

/-- A fully successful run: every oracle succeeds, so the trace is the four
configure events, the possible `isatty` query, and `repeat` full iteration
blocks in iteration order. -/
theorem do_main_ok (o : Options) (env : Env)
    (hOpen : env.openErr = none) (hBits : env.bitsErr = none)
    (hSpeed : env.speedErr = none) (hMode : env.modeErr = none)
    (hCs : env.csErr = none) (hIn : env.inputOpenErr = none)
    (hOut : env.outputOpenErr = none) (hRead : env.readErr = none)
    (hT : ∀ j, env.transferErr j = none) (hW : ∀ n, env.writeErr n = none) :
    ∃ w rb, do_main o env =
      (⟨cfgEvents o ++ (ttyEvents o env ++
          blockEvents (buildPlan env.inputBytes o.speed o.pre_delay)
            (resolveFormat o.format env.isatty) env env.inputBytes.length 0 o.«repeat»),
        rb, w⟩, none) := by
  cases hf : o.format with
  | some f =>
    obtain ⟨w, rb, hrun, _⟩ := runLoop_ok o env f env.inputBytes hW hT o.«repeat» 0
      ⟨[Event.configured .bitsPerWord o.bits_per_word, Event.configured .maxSpeedHz o.speed,
        Event.configured .spiMode o.mode.flags, Event.configured .chipSelect o.chip_select.flags],
       List.replicate env.inputBytes.length (0 : Byte), 0⟩
    refine ⟨w, rb, ?_⟩
    simp only [do_main, hOpen, hBits, hSpeed, hMode, hCs, hIn, hOut, hRead, ite_self, hf]
    simp only [List.nil_append, List.singleton_append, List.cons_append] at hrun ⊢
    rw [hrun]
    simp [cfgEvents, ttyEvents, hf, resolveFormat, List.length_replicate]
  | none =>
    obtain ⟨w, rb, hrun, _⟩ := runLoop_ok o env (if env.isatty then .Hexadecimal else .Raw)
      env.inputBytes hW hT o.«repeat» 0
      ⟨[Event.configured .bitsPerWord o.bits_per_word, Event.configured .maxSpeedHz o.speed,
        Event.configured .spiMode o.mode.flags, Event.configured .chipSelect o.chip_select.flags,
        Event.ttyCheck env.isatty],
       List.replicate env.inputBytes.length (0 : Byte), 0⟩
    refine ⟨w, rb, ?_⟩
    simp only [do_main, hOpen, hBits, hSpeed, hMode, hCs, hIn, hOut, hRead, ite_self, hf]
    simp only [List.nil_append, List.singleton_append, List.cons_append] at hrun ⊢
    rw [hrun]
    simp [cfgEvents, ttyEvents, hf, resolveFormat, List.length_replicate]

/-- A run whose first failure is the transfer of iteration `i`: the trace is
the configuration and resolution events followed by exactly the `i` earlier
full iteration blocks, and the run surfaces the transfer error; iterations
after `i` are not attempted. -/
theorem do_main_fail (o : Options) (env : Env)
    (hOpen : env.openErr = none) (hBits : env.bitsErr = none)
    (hSpeed : env.speedErr = none) (hMode : env.modeErr = none)
    (hCs : env.csErr = none) (hIn : env.inputOpenErr = none)
    (hOut : env.outputOpenErr = none) (hRead : env.readErr = none)
    (hW : ∀ n, env.writeErr n = none) (i : Nat) (e : String)
    (hTi : env.transferErr i = some e)
    (hT : ∀ j, j < i → env.transferErr j = none)
    (hi : i < o.«repeat») :
    ∃ w rb, do_main o env =
      (⟨cfgEvents o ++ (ttyEvents o env ++
          blockEvents (buildPlan env.inputBytes o.speed o.pre_delay)
            (resolveFormat o.format env.isatty) env env.inputBytes.length 0 i),
        rb, w⟩, some ("SPI transaction failed: " ++ e)) := by
  cases hf : o.format with
  | some f =>
    obtain ⟨w, rb, hrun⟩ := runLoop_fail o env f env.inputBytes hW i e hTi hT o.«repeat» 0
      ⟨[Event.configured .bitsPerWord o.bits_per_word, Event.configured .maxSpeedHz o.speed,
        Event.configured .spiMode o.mode.flags, Event.configured .chipSelect o.chip_select.flags],
       List.replicate env.inputBytes.length (0 : Byte), 0⟩ (by omega) (by omega)
    refine ⟨w, rb, ?_⟩
    simp only [do_main, hOpen, hBits, hSpeed, hMode, hCs, hIn, hOut, hRead, ite_self, hf]
    simp only [List.nil_append, List.singleton_append, List.cons_append, Nat.sub_zero] at hrun ⊢
    rw [hrun]
    simp [cfgEvents, ttyEvents, hf, resolveFormat, List.length_replicate]
  | none =>
    obtain ⟨w, rb, hrun⟩ := runLoop_fail o env (if env.isatty then .Hexadecimal else .Raw)
      env.inputBytes hW i e hTi hT o.«repeat» 0
      ⟨[Event.configured .bitsPerWord o.bits_per_word, Event.configured .maxSpeedHz o.speed,
        Event.configured .spiMode o.mode.flags, Event.configured .chipSelect o.chip_select.flags,
        Event.ttyCheck env.isatty],
       List.replicate env.inputBytes.length (0 : Byte), 0⟩ (by omega) (by omega)
    refine ⟨w, rb, ?_⟩
    simp only [do_main, hOpen, hBits, hSpeed, hMode, hCs, hIn, hOut, hRead, ite_self, hf]
    simp only [List.nil_append, List.singleton_append, List.cons_append, Nat.sub_zero] at hrun ⊢
    rw [hrun]
    simp [cfgEvents, ttyEvents, hf, resolveFormat, List.length_replicate]

theorem ttyCount_append (a b : List Event) :
    ttyCount (a ++ b) = ttyCount a + ttyCount b := by
  simp [ttyCount, List.filter_append]

theorem ttyCount_zero_of (l : List Event) (h : ∀ ev ∈ l, Event.isTty ev = false) :
    ttyCount l = 0 := by
  have : l.filter Event.isTty = [] :=
    List.filter_eq_nil_iff.mpr (fun a ha => by simp [h a ha])
  simp [ttyCount, this]

theorem cfgEvents_no_tty (o : Options) : ∀ ev ∈ cfgEvents o, Event.isTty ev = false := by
  intro ev hev
  simp only [cfgEvents, List.mem_cons, List.mem_singleton] at hev
  rcases hev with rfl | rfl | rfl | rfl | h
  · rfl
  · rfl
  · rfl
  · rfl
  · simp at h

theorem transferCount_cfgEvents (o : Options) : transferCount (cfgEvents o) = 0 := rfl

theorem transferCount_ttyEvents (o : Options) (env : Env) :
    transferCount (ttyEvents o env) = 0 := by
  cases hf : o.format <;> simp [ttyEvents, hf, transferCount, Event.isTransfer, List.filter]

theorem sinkOf_cfgEvents (o : Options) : sinkOf (cfgEvents o) = "" := by
  simp [cfgEvents, sinkOf, Event.written, str_empty_append]

theorem sinkOf_ttyEvents (o : Options) (env : Env) : sinkOf (ttyEvents o env) = "" := by
  cases hf : o.format <;> simp [ttyEvents, hf, sinkOf, Event.written, str_empty_append]

theorem ttyCount_map_wrote (ps : List String) : ttyCount (ps.map Event.wrote) = 0 := by
  apply ttyCount_zero_of
  intro ev hev
  obtain ⟨s, _, rfl⟩ := List.mem_map.mp hev
  rfl

theorem ttyCount_blockEvents (plan : List SpidevTransfer) (format : OutputFormat)
    (env : Env) (L : Nat) :
    ∀ (n k : Nat), ttyCount (blockEvents plan format env L k n) = 0 := by
  intro n
  induction n with
  | zero => intro k; rfl
  | succ n ih =>
    intro k
    have h1 : ttyCount (iterEvents plan format (capture env k L)) = 0 := by
      show ttyCount ([Event.transfer plan (capture env k L)] ++
        (outPieces format (capture env k L)).map Event.wrote) = 0
      rw [ttyCount_append, ttyCount_map_wrote]
      rfl
    simp [blockEvents, ttyCount_append, h1, ih]

theorem blocksOut_raw_empty (env : Env) :
    ∀ (n k : Nat), blocksOut .Raw env 0 k n = "" := by
  intro n
  induction n with
  | zero => intro k; rfl
  | succ n ih =>
    intro k
    simp only [blocksOut]
    rw [ih, str_append_empty]
    rfl

/-- C4: output-format resolution. An explicit format is used verbatim
regardless of the destination; otherwise the resolved format is
`Hexadecimal` for an interactive destination and `Raw` for a
non-interactive one. The resolution is evaluated at most once per
invocation (at most one `isatty` query in any trace) and before the repeat
loop (never after a transfer). -/
theorem format_resolution :
    (∀ (f : OutputFormat) (tty : Bool), resolveFormat (some f) tty = f) ∧
    resolveFormat none true = .Hexadecimal ∧
    resolveFormat none false = .Raw ∧
    (∀ (o : Options) (env : Env), ttyCount (do_main o env).1.events ≤ 1) ∧
    (∀ (o : Options) (env : Env) (l₁ l₂ : List Event) (b : Bool),
      (do_main o env).1.events = l₁ ++ Event.ttyCheck b :: l₂ →
      ∀ (p : List SpidevTransfer) (rx : List Byte), Event.transfer p rx ∉ l₁) := by
  refine ⟨fun f tty => rfl, rfl, rfl, ?_, ?_⟩
  · intro o env
    rcases do_main_split o env with ⟨j, _, hev⟩ | ⟨mid, t, hev, hmid, ht⟩
    · rw [hev]
      rw [ttyCount_zero_of _ (fun ev hevm =>
        cfgEvents_no_tty o ev (List.take_subset j _ hevm))]
      omega
    · rw [hev, ttyCount_append, ttyCount_append]
      have h1 : ttyCount (cfgEvents o) = 0 := ttyCount_zero_of _ (cfgEvents_no_tty o)
      have h3 : ttyCount t = 0 := by
        apply ttyCount_zero_of
        intro ev hevm
        rcases ht ev hevm with ⟨rx, rfl, _⟩ | ⟨u, rfl⟩ <;> rfl
      have h2 : ttyCount mid ≤ 1 := by
        rcases hmid with rfl | rfl
        · simp [ttyCount]
        · simp [ttyCount, Event.isTty, List.filter]
      omega
  · intro o env l₁ l₂ b h p rx
    rcases do_main_split o env with ⟨j, _, hev⟩ | ⟨mid, t, hev, hmid, ht⟩
    · exfalso
      rw [hev] at h
      have hm : Event.ttyCheck b ∈ (cfgEvents o).take j := by
        rw [h]; exact List.mem_append_right _ (List.mem_cons_self _ _)
      have := cfgEvents_no_tty o _ (List.take_subset j _ hm)
      simp [Event.isTty] at this
    · rw [hev] at h
      obtain ⟨l', hl, hrest⟩ := split_skip (cfgEvents o) l₁ (mid ++ t) l₂
        (Event.ttyCheck b) h (by simp [cfgEvents])
      have no_tty_in_t : Event.ttyCheck b ∉ t := by
        intro hmem
        rcases ht _ hmem with ⟨rx', heq, _⟩ | ⟨u, heq⟩ <;> simp at heq
      have hl' : l' = [] := by
        rcases hmid with rfl | rfl
        · exfalso
          apply no_tty_in_t
          have hteq : t = l' ++ Event.ttyCheck b :: l₂ := by simpa using hrest
          rw [hteq]
          exact List.mem_append_right _ (List.mem_cons_self _ _)
        · cases l' with
          | nil => rfl
          | cons y ys =>
            exfalso
            apply no_tty_in_t
            simp only [List.singleton_append, List.cons_append] at hrest
            injection hrest with h1 h2
            rw [show t = ys ++ Event.ttyCheck b :: l₂ by simpa using h2]
            exact List.mem_append_right _ (List.mem_cons_self _ _)
      subst hl'
      rw [hl]
      intro hmem
      rcases List.mem_append.mp hmem with hmem | hmem
      · exact absurd hmem (by simp [cfgEvents])
      · simp at hmem

/-- C6: for every repeat count N (including 0), a fully successful run
executes the plan exactly N times and the sink receives exactly the N
formatted blocks in iteration order, each block being the formatted
rendering of that iteration's capture only (the reused receive buffer leaks
nothing across iterations: block k is a function of iteration k's device
bytes alone). -/
theorem repeat_runs_n_blocks (o : Options) (env : Env)
    (hOpen : env.openErr = none) (hBits : env.bitsErr = none)
    (hSpeed : env.speedErr = none) (hMode : env.modeErr = none)
    (hCs : env.csErr = none) (hIn : env.inputOpenErr = none)
    (hOut : env.outputOpenErr = none) (hRead : env.readErr = none)
    (hT : ∀ j, env.transferErr j = none) (hW : ∀ n, env.writeErr n = none) :
    (do_main o env).2 = none ∧
    transferCount (do_main o env).1.events = o.«repeat» ∧
    sinkOf (do_main o env).1.events =
      blocksOut (resolveFormat o.format env.isatty) env env.inputBytes.length 0 o.«repeat» := by
  obtain ⟨w, rb, hdm⟩ :=
    do_main_ok o env hOpen hBits hSpeed hMode hCs hIn hOut hRead hT hW
  rw [hdm]
  refine ⟨rfl, ?_, ?_⟩
  · show transferCount (cfgEvents o ++ (ttyEvents o env ++ _)) = _
    rw [transferCount_append, transferCount_append, transferCount_cfgEvents,
      transferCount_ttyEvents, transferCount_blockEvents]
    omega
  · show sinkOf (cfgEvents o ++ (ttyEvents o env ++ _)) = _
    rw [sinkOf_append, sinkOf_append, sinkOf_cfgEvents, sinkOf_ttyEvents,
      sinkOf_blockEvents, str_empty_append, str_empty_append]

/-- C7: if the transfer of iteration `i` fails (all earlier ones
succeeding), the run aborts immediately: exactly `i` transfers were
executed (no retry, iterations after `i` are not attempted), the
"SPI transaction failed" error carrying the underlying cause is surfaced to
the top level, and the output already flushed for the `i` earlier
iterations stays on the sink. -/
theorem transfer_failure_aborts (o : Options) (env : Env)
    (hOpen : env.openErr = none) (hBits : env.bitsErr = none)
    (hSpeed : env.speedErr = none) (hMode : env.modeErr = none)
    (hCs : env.csErr = none) (hIn : env.inputOpenErr = none)
    (hOut : env.outputOpenErr = none) (hRead : env.readErr = none)
    (hW : ∀ n, env.writeErr n = none) (i : Nat) (e : String)
    (hTi : env.transferErr i = some e)
    (hT : ∀ j, j < i → env.transferErr j = none)
    (hi : i < o.«repeat») :
    (do_main o env).2 = some ("SPI transaction failed: " ++ e) ∧
    transferCount (do_main o env).1.events = i ∧
    sinkOf (do_main o env).1.events =
      blocksOut (resolveFormat o.format env.isatty) env env.inputBytes.length 0 i := by
  obtain ⟨w, rb, hdm⟩ :=
    do_main_fail o env hOpen hBits hSpeed hMode hCs hIn hOut hRead hW i e hTi hT hi
  rw [hdm]
  refine ⟨rfl, ?_, ?_⟩
  · show transferCount (cfgEvents o ++ (ttyEvents o env ++ _)) = _
    rw [transferCount_append, transferCount_append, transferCount_cfgEvents,
      transferCount_ttyEvents, transferCount_blockEvents]
    omega
  · show sinkOf (cfgEvents o ++ (ttyEvents o env ++ _)) = _
    rw [sinkOf_append, sinkOf_append, sinkOf_cfgEvents, sinkOf_ttyEvents,
      sinkOf_blockEvents, str_empty_append, str_empty_append]

/-- C10: no output reaches the sink before the iteration's transfer has
completed successfully — when the transfer of iteration `i` fails, the sink
holds exactly the formatted blocks of iterations 0..i-1 and nothing of
iteration `i`, and the run aborts. -/
theorem sink_exact_on_failure (o : Options) (env : Env)
    (hOpen : env.openErr = none) (hBits : env.bitsErr = none)
    (hSpeed : env.speedErr = none) (hMode : env.modeErr = none)
    (hCs : env.csErr = none) (hIn : env.inputOpenErr = none)
    (hOut : env.outputOpenErr = none) (hRead : env.readErr = none)
    (hW : ∀ n, env.writeErr n = none) (i : Nat) (e : String)
    (hTi : env.transferErr i = some e)
    (hT : ∀ j, j < i → env.transferErr j = none)
    (hi : i < o.«repeat») :
    sinkOf (do_main o env).1.events =
      blocksOut (resolveFormat o.format env.isatty) env env.inputBytes.length 0 i ∧
    (do_main o env).2 ≠ none := by
  obtain ⟨w, rb, hdm⟩ :=
    do_main_fail o env hOpen hBits hSpeed hMode hCs hIn hOut hRead hW i e hTi hT hi
  rw [hdm]
  refine ⟨?_, by simp⟩
  show sinkOf (cfgEvents o ++ (ttyEvents o env ++ _)) = _
  rw [sinkOf_append, sinkOf_append, sinkOf_cfgEvents, sinkOf_ttyEvents,
    sinkOf_blockEvents, str_empty_append, str_empty_append]

/-- C9: an empty transmit payload is not skipped — the degenerate
zero-length transfer still executes on every iteration — and under the
`Raw` format the sink receives exactly zero bytes. -/
theorem empty_payload_still_transfers (o : Options) (env : Env)
    (hOpen : env.openErr = none) (hBits : env.bitsErr = none)
    (hSpeed : env.speedErr = none) (hMode : env.modeErr = none)
    (hCs : env.csErr = none) (hIn : env.inputOpenErr = none)
    (hOut : env.outputOpenErr = none) (hRead : env.readErr = none)
    (hT : ∀ j, env.transferErr j = none) (hW : ∀ n, env.writeErr n = none)
    (hEmpty : env.inputBytes = []) (hFmt : o.format = some .Raw) :
    (do_main o env).2 = none ∧
    transferCount (do_main o env).1.events = o.«repeat» ∧
    sinkOf (do_main o env).1.events = "" := by
  obtain ⟨w, rb, hdm⟩ :=
    do_main_ok o env hOpen hBits hSpeed hMode hCs hIn hOut hRead hT hW
  rw [hdm]
  refine ⟨rfl, ?_, ?_⟩
  · show transferCount (cfgEvents o ++ (ttyEvents o env ++ _)) = _
    rw [transferCount_append, transferCount_append, transferCount_cfgEvents,
      transferCount_ttyEvents, transferCount_blockEvents]
    omega
  · show sinkOf (cfgEvents o ++ (ttyEvents o env ++ _)) = _
    rw [sinkOf_append, sinkOf_append, sinkOf_cfgEvents, sinkOf_ttyEvents,
      sinkOf_blockEvents, str_empty_append, str_empty_append]
    rw [show resolveFormat o.format env.isatty = .Raw by rw [hFmt]; rfl]
    rw [show env.inputBytes.length = 0 by rw [hEmpty]; rfl]
    exact blocksOut_raw_empty env o.«repeat» 0

/-- C8: a rejected configuration call aborts the run before any transfer:
whichever of the four settings the driver rejects, `do_main` surfaces the
error message naming that setting and the offending value, the trace holds
zero transfers, and the process exits with status 1. -/
theorem config_rejection (o : Options) (env : Env) (e : String)
    (hOpen : env.openErr = none) :
    (env.bitsErr = some e →
      (do_main o env).2 = some ("Failed to set " ++ toString o.bits_per_word ++
        " bits per word: " ++ e) ∧
      transferCount (do_main o env).1.events = 0 ∧ main_status o env = 1) ∧
    (env.bitsErr = none → env.speedErr = some e →
      (do_main o env).2 = some ("Failed to max speed to " ++ toString o.speed ++
        " Hz: " ++ e) ∧
      transferCount (do_main o env).1.events = 0 ∧ main_status o env = 1) ∧
    (env.bitsErr = none → env.speedErr = none → env.modeErr = some e →
      (do_main o env).2 = some ("Failed to set SPI mode to " ++ toString o.mode.toU8 ++
        ": " ++ e) ∧
      transferCount (do_main o env).1.events = 0 ∧ main_status o env = 1) ∧
    (env.bitsErr = none → env.speedErr = none → env.modeErr = none → env.csErr = some e →
      (do_main o env).2 = some ("Failed to set chip select mode to " ++
        o.chip_select.display ++ ": " ++ e) ∧
      transferCount (do_main o env).1.events = 0 ∧ main_status o env = 1) := by
  refine ⟨?_, ?_, ?_, ?_⟩
  · intro h1
    refine ⟨by simp [do_main, hOpen, h1], ?_, by simp [main_status, do_main, hOpen, h1]⟩
    simp [do_main, hOpen, h1, transferCount]
  · intro h1 h2
    refine ⟨by simp [do_main, hOpen, h1, h2], ?_,
      by simp [main_status, do_main, hOpen, h1, h2]⟩
    simp [do_main, hOpen, h1, h2, transferCount, Event.isTransfer, List.filter]
  · intro h1 h2 h3
    refine ⟨by simp [do_main, hOpen, h1, h2, h3], ?_,
      by simp [main_status, do_main, hOpen, h1, h2, h3]⟩
    simp [do_main, hOpen, h1, h2, h3, transferCount, Event.isTransfer, List.filter]
  · intro h1 h2 h3 h4
    refine ⟨by simp [do_main, hOpen, h1, h2, h3, h4], ?_,
      by simp [main_status, do_main, hOpen, h1, h2, h3, h4]⟩
    simp [do_main, hOpen, h1, h2, h3, h4, transferCount, Event.isTransfer, List.filter]

theorem configuration_precedes_transfers_witness :
    Event.configured ConfigField.bitsPerWord opts2.bits_per_word ∈ cfgEvents opts2 ∧
    Event.configured ConfigField.maxSpeedHz opts2.speed ∈ cfgEvents opts2 ∧
    Event.configured ConfigField.spiMode opts2.mode.flags ∈ cfgEvents opts2 ∧
    Event.configured ConfigField.chipSelect opts2.chip_select.flags ∈ cfgEvents opts2 :=
  configuration_precedes_transfers opts2 env2 (cfgEvents opts2) [Event.wrote ""]
    (buildPlan [] opts2.speed none) [] (by decide)

theorem capture_has_payload_length_witness :
    (capture env1 0 env1.inputBytes.length).length = env1.inputBytes.length ∧
    buildPlan env1.inputBytes opts1.speed opts1.pre_delay =
      buildPlan env1.inputBytes opts1.speed opts1.pre_delay :=
  capture_has_payload_length opts1 env1
    (buildPlan env1.inputBytes opts1.speed opts1.pre_delay)
    (capture env1 0 env1.inputBytes.length) (by decide)

theorem repeat_runs_n_blocks_witness :
    (do_main opts1 env1).2 = none ∧
    transferCount (do_main opts1 env1).1.events = opts1.«repeat» ∧
    sinkOf (do_main opts1 env1).1.events =
      blocksOut (resolveFormat opts1.format env1.isatty) env1 env1.inputBytes.length 0
        opts1.«repeat» :=
  repeat_runs_n_blocks opts1 env1 rfl rfl rfl rfl rfl rfl rfl rfl
    (fun _ => rfl) (fun _ => rfl)

theorem transfer_failure_aborts_witness :
    (do_main opts3 env3).2 = some ("SPI transaction failed: " ++ "EIO") ∧
    transferCount (do_main opts3 env3).1.events = 1 ∧
    sinkOf (do_main opts3 env3).1.events =
      blocksOut (resolveFormat opts3.format env3.isatty) env3 env3.inputBytes.length 0 1 :=
  transfer_failure_aborts opts3 env3 rfl rfl rfl rfl rfl rfl rfl rfl
    (fun _ => rfl) 1 "EIO" rfl
    (fun j hj => by
      show (if j = 1 then some "EIO" else none) = none
      rw [if_neg (by omega)])
    (by decide)

theorem sink_exact_on_failure_witness :
    sinkOf (do_main opts3 env3).1.events =
      blocksOut (resolveFormat opts3.format env3.isatty) env3 env3.inputBytes.length 0 1 ∧
    (do_main opts3 env3).2 ≠ none :=
  sink_exact_on_failure opts3 env3 rfl rfl rfl rfl rfl rfl rfl rfl
    (fun _ => rfl) 1 "EIO" rfl
    (fun j hj => by
      show (if j = 1 then some "EIO" else none) = none
      rw [if_neg (by omega)])
    (by decide)

theorem empty_payload_still_transfers_witness :
    (do_main opts2 env2).2 = none ∧
    transferCount (do_main opts2 env2).1.events = opts2.«repeat» ∧
    sinkOf (do_main opts2 env2).1.events = "" :=
  empty_payload_still_transfers opts2 env2 rfl rfl rfl rfl rfl rfl rfl rfl
    (fun _ => rfl) (fun _ => rfl) rfl rfl

theorem config_rejection_witness :
    (do_main opts4 env4).2 = some ("Failed to set " ++ toString opts4.bits_per_word ++
      " bits per word: " ++ "Invalid argument") ∧
    transferCount (do_main opts4 env4).1.events = 0 ∧ main_status opts4 env4 = 1 :=
  (config_rejection opts4 env4 "Invalid argument" rfl).1 rfl

end Spicat
